import Mathlib

/-!
Verification of the torrent-client repository: a shallow embedding in Lean of
the bencode decoder (internal/decoder/decoder.go) and of the peer-wire /
download logic (the `torrent` package: Handshake, waitForMessage, interested,
requestPiece, Download), together with theorems settling the frozen claims.

Modelling conventions:
- Bytes are `Nat` (all values used are < 256).
- The bencode decoder's `bufio.Reader` is modelled by the list of remaining
  input bytes.  `bufio.Reader.Read` on a buffer of size n returns the first
  `min n remaining` bytes with no error, and errors only when the stream is
  already exhausted (and n > 0); the destination buffer is zero-initialised,
  so a short read yields the received bytes followed by zero padding.  This
  matches Go's behaviour for inputs smaller than the bufio buffer (4096
  bytes), which covers every input considered here.
- The network connection is a script: `Conn.incoming` is the byte stream the
  peer will deliver, `Conn.sent` accumulates everything written, and
  `Conn.writeResults` is a script of write outcomes (an exhausted script
  means writes succeed).  `conn.Read` into an n-byte buffer is modelled like
  the bufio read above (exact bytes when available, zero-padded short read
  otherwise, error only at end of stream); `io.ReadFull` requires the exact
  byte count.
- Go runtime panics (out-of-range indexing/slicing, `make` with a negative
  size) are modelled by a distinguished result (`POut.panicked`, resp. the
  decoder error `DecErr.panicked`), kept separate from error returns.
- `strconv.Atoi` is modelled without the int64 overflow check (all integers
  exercised here are tiny); it accepts an optional leading sign followed by
  at least one ASCII digit, including representations such as "-0" or "007".
- `math.Ceil(float64(a)/float64(b))` for the sizes involved is exact and is
  modelled as the integer ceiling division `ceilDivNat`.
- The HTTP tracker exchange inside `ConnectTracker`, the TCP dial inside
  `Handshake`, and `os.WriteFile` are external effects; their outcomes are
  oracle fields of `World` (`trackerOk`, `dialOk`, `writeFileOk`).  The list
  of file writes performed is returned by `Download` alongside its result;
  `os.WriteFile` is treated as atomic (on failure nothing is recorded).
-/

namespace Torrent

/-! ## Bencode decoder (internal/decoder/decoder.go) -/

/-- The generic decoded bencode value: Go's `any` holding `int`, `string`,
`[]any` or `map[string]any`.  The Go map is modelled as an association list
with insert-or-overwrite semantics. -/
inductive BValue where
  | int (n : Int)
  | str (s : List Nat)
  | list (xs : List BValue)
  | dict (xs : List (List Nat × BValue))

/-- Decoder error kinds, one per `fmt.Errorf` site of decoder.go, plus
`panicked` marking a Go runtime panic (not an error return) and `outOfFuel`
marking exhaustion of the recursion fuel (never hit with enough fuel). -/
inductive DecErr where
  | invalidInt
  | invalidStringFormat
  | readFailed
  | keyNotString
  | unknownFormat
  | outOfFuel
  | panicked
  deriving DecidableEq

/-- `unicode.IsDigit` restricted to byte values: the only Unicode decimal
digits below 256 are ASCII '0'..'9'. -/
def isDigit (b : Nat) : Bool := 48 ≤ b && b ≤ 57

/-- Parse a non-empty all-digit byte list as a natural number (with Go's
`strconv.Atoi` acceptance of leading zeros). -/
def digitsToNat (ds : List Nat) : Option Nat :=
  if ds = [] then none
  else if ds.all isDigit then some (ds.foldl (fun a d => a * 10 + (d - 48)) 0)
  else none

/-- `strconv.Atoi`: optional single leading '+' or '-', then at least one
digit.  (The int64 range check is not modelled; see the header.) -/
def atoi (s : List Nat) : Option Int :=
  match s with
  | [] => none
  | c :: rest =>
    if c = 45 then (digitsToNat rest).map (fun n => -(n : Int))
    else if c = 43 then (digitsToNat rest).map (fun n => (n : Int))
    else (digitsToNat s).map (fun n => (n : Int))

/-- `bufio.Reader.ReadBytes(delim)`: the bytes up to and including the first
occurrence of `delim`, plus the remaining input; `none` (an error in Go) when
`delim` does not occur. -/
def readBytesUntil (delim : Nat) (input : List Nat) : Option (List Nat × List Nat) :=
  match input.dropWhile (fun b => b ≠ delim) with
  | [] => none
  | _ :: rest => some (input.takeWhile (fun b => b ≠ delim) ++ [delim], rest)

/-- `Decoder.decodeInt`, entered after the leading 'i' (byte 105) has been
consumed: read up to the terminating 'e' (byte 101), reject a leading '0'
(byte 48) followed by further characters, then run `strconv.Atoi`. -/
def decodeInt (input : List Nat) : Except DecErr (Int × List Nat) :=
  match readBytesUntil 101 input with
  | none => .error .invalidInt
  | some (intBytes, rest) =>
    let numBytes := intBytes.dropLast
    if 1 < numBytes.length ∧ numBytes.head? = some 48 then .error .invalidInt
    else
      match atoi numBytes with
      | none => .error .invalidInt
      | some n => .ok (n, rest)

/-- Zero-padded buffer read: the first `n` remaining bytes, padded with the
zero initialisation of the destination buffer when fewer are available. -/
def paddedTake (n : Nat) (l : List Nat) : List Nat :=
  l.take n ++ List.replicate (n - l.length) 0

/-- `Decoder.decodeString`: read the length prefix up to ':', parse it with
`strconv.Atoi`, allocate a zero-filled buffer of that length and perform one
read into it, checking only the read error (not the byte count). -/
def decodeString (input : List Nat) : Except DecErr (List Nat × List Nat) :=
  match readBytesUntil 58 input with
  | none => .error .readFailed
  | some (lenBytes, rest) =>
    match atoi lenBytes.dropLast with
    | none => .error .invalidStringFormat
    | some len =>
      if len < 0 then .error .panicked
      else if rest = [] ∧ len.toNat ≠ 0 then .error .readFailed
      else .ok (paddedTake len.toNat rest, rest.drop len.toNat)

/-- Go's `m[key] = v` on `map[string]any`: insert or overwrite. -/
def upsert (m : List (List Nat × BValue)) (k : List Nat) (v : BValue) :
    List (List Nat × BValue) :=
  match m with
  | [] => [(k, v)]
  | (k0, v0) :: rest => if k0 = k then (k0, v) :: rest else (k0, v0) :: upsert rest k v

mutual

/-- `Decoder.Decode`: dispatch on the lookahead byte (digit → string, 'i' →
integer, 'l' → list, 'd' → dictionary, otherwise "unknown format").  The
`fuel` argument bounds the recursion depth; `input.length + 1` always
suffices. -/
def decodeD : Nat → List Nat → Except DecErr (BValue × List Nat)
  | 0, _ => .error .outOfFuel
  | _ + 1, [] => .error .readFailed
  | fuel + 1, b :: rest =>
    if isDigit b then
      match decodeString (b :: rest) with
      | .error e => .error e
      | .ok (s, r) => .ok (.str s, r)
    else if b = 105 then
      match decodeInt rest with
      | .error e => .error e
      | .ok (n, r) => .ok (.int n, r)
    else if b = 108 then decodeArrayLoop fuel rest []
    else if b = 100 then decodeDictLoop fuel rest []
    else .error .unknownFormat

/-- The loop of `Decoder.decodeArray`: read a byte, stop at 'e', otherwise
unread it and decode one element. -/
def decodeArrayLoop : Nat → List Nat → List BValue → Except DecErr (BValue × List Nat)
  | 0, _, _ => .error .outOfFuel
  | _ + 1, [], _ => .error .readFailed
  | fuel + 1, b :: rest, acc =>
    if b = 101 then .ok (.list acc, rest)
    else
      match decodeD fuel (b :: rest) with
      | .error e => .error e
      | .ok (v, r) => decodeArrayLoop fuel r (acc ++ [v])

/-- The loop of `Decoder.decodeDict`: read a byte, stop at 'e', otherwise
unread it, decode one value as the key — which must be a string, else the
decode fails — then decode the associated value. -/
def decodeDictLoop : Nat → List Nat → List (List Nat × BValue) →
    Except DecErr (BValue × List Nat)
  | 0, _, _ => .error .outOfFuel
  | _ + 1, [], _ => .error .readFailed
  | fuel + 1, b :: rest, acc =>
    if b = 101 then .ok (.dict acc, rest)
    else
      match decodeD fuel (b :: rest) with
      | .error e => .error e
      | .ok (k, r) =>
        match k with
        | .str key =>
          match decodeD fuel r with
          | .error e => .error e
          | .ok (v, r2) => decodeDictLoop fuel r2 (upsert acc key v)
        | _ => .error .keyNotString

end

/-! ## Peer session and download orchestration (package torrent) -/

/-- Error kinds, one per `fmt.Errorf` site of the torrent package; the
wrapping sites (`failed to do a handshake: %v`, `failed to download a
piece: %v`) carry the wrapped error. -/
inductive PErr where
  | trackerFailed
  | connectFailed
  | writeFailed
  | readFailed
  | wrongMessage (wanted got : Nat)
  | handshakeFailed (e : PErr)
  | pieceFailed (e : PErr)
  | writeFileFailed
  deriving DecidableEq

/-- The outcome of a peer-session operation: a value, a returned error, or a
Go runtime panic. -/
inductive POut (α : Type) where
  | ok (a : α)
  | err (e : PErr)
  | panicked
  deriving DecidableEq

/-- The scripted connection: bytes the peer will deliver, bytes written so
far, and a script of outcomes for write calls (exhausted script: success). -/
structure Conn where
  incoming : List Nat
  sent : List Nat
  writeResults : List Bool
  deriving DecidableEq

/-- `conn.Write`: appends to `sent` on success; on a scripted failure
nothing is sent. -/
def connWrite (bs : List Nat) (c : Conn) : Conn × Bool :=
  match c.writeResults with
  | [] => ({ c with sent := c.sent ++ bs }, true)
  | b :: rest =>
    if b then ({ incoming := c.incoming, sent := c.sent ++ bs, writeResults := rest }, true)
    else ({ c with writeResults := rest }, false)

/-- `conn.Read` into an n-byte zero-initialised buffer: errors only at end
of stream, otherwise delivers up to n bytes, zero-padded. -/
def connRead (n : Nat) (c : Conn) : Option (List Nat × Conn) :=
  if c.incoming = [] ∧ n ≠ 0 then none
  else some (paddedTake n c.incoming, { c with incoming := c.incoming.drop n })

/-- `io.ReadFull`: exactly n bytes or an error. -/
def connReadFull (n : Nat) (c : Conn) : Option (List Nat × Conn) :=
  if c.incoming.length < n then none
  else some (c.incoming.take n, { c with incoming := c.incoming.drop n })

/-- `binary.BigEndian.Uint32` of a 4-byte buffer. -/
def beU32 (bs : List Nat) : Nat := bs.foldl (fun a b => a * 256 + b) 0

/-- The 4 big-endian bytes of a 32-bit value (Go's `uint32` casts of
non-negative values are absorbed by the per-byte reductions). -/
def be32 (n : Nat) : List Nat :=
  [n / 2 ^ 24 % 256, n / 2 ^ 16 % 256, n / 2 ^ 8 % 256, n % 256]

/-- Go's `uint32(z)` conversion of a (possibly negative) integer. -/
def u32ofInt (z : Int) : Nat := (z % (2 ^ 32 : Int)).toNat

/-- The 19 bytes of the ASCII string "BitTorrent protocol". -/
def protocolBytes : List Nat :=
  [66, 105, 116, 84, 111, 114, 114, 101, 110, 116, 32,
   112, 114, 111, 116, 111, 99, 111, 108]

/-- The handshake message built by `TorrentClient.Handshake`: byte 19, the
protocol name, 8 reserved zero bytes, the info hash, the local peer id. -/
def handshakeMsg (infoHash peerId : List Nat) : List Nat :=
  [19] ++ protocolBytes ++ List.replicate 8 0 ++ infoHash ++ peerId

/-- `TorrentClient.Handshake`: dial (oracle outcome), send the handshake
message, read the 68-byte reply with a single `conn.Read`; the remote peer
id is `buf[48:]` of the 68-byte reply buffer. -/
def Handshake (dialOk : Bool) (infoHash peerId : List Nat) (c : Conn) :
    Conn × POut (List Nat) :=
  if dialOk = false then (c, .err .connectFailed)
  else
    match connWrite (handshakeMsg infoHash peerId) c with
    | (c1, false) => (c1, .err .writeFailed)
    | (c1, true) =>
      match connRead 68 c1 with
      | none => (c1, .err .readFailed)
      | some (buf, c2) => (c2, .ok (buf.drop 48))

/-- `TorrentClient.waitForMessage`: read the 4-byte big-endian length
prefix, read that many body bytes, then compare `message[0]` — an
out-of-range access (a panic) when the body is empty — with the expected
message id. -/
def waitForMessage (messageId : Nat) (c : Conn) : Conn × POut Unit :=
  match connRead 4 c with
  | none => (c, .err .readFailed)
  | some (lengthBuf, c1) =>
    match connRead (beU32 lengthBuf) c1 with
    | none => (c1, .err .readFailed)
    | some (message, c2) =>
      match message with
      | [] => (c2, .panicked)
      | m :: _ => if m = messageId then (c2, .ok ()) else (c2, .err (.wrongMessage messageId m))

/-- `TorrentClient.interested`: send the fixed 5-byte Interested message
(length prefix 1, id 2). -/
def interested (c : Conn) : Conn × POut Unit :=
  match connWrite [0, 0, 0, 1, 2] c with
  | (c1, true) => (c1, .ok ())
  | (c1, false) => (c1, .err .writeFailed)

/-- `int(math.Ceil(float64 a / float64 b))` for the non-negative operand
ranges used by the client (exact for these magnitudes). -/
def ceilDivNat (a b : Nat) : Nat := (a + b - 1) / b

/-- The 17-byte Request message serialised by `binary.Write` in
`requestPiece`: big-endian uint32 length prefix 13, byte id 6 (Request),
then piece index, block begin offset and block length as big-endian
uint32. -/
def requestMsg (pieceIndex blockBegin : Nat) (blockLength : Int) : List Nat :=
  be32 13 ++ [6] ++ be32 pieceIndex ++ be32 blockBegin ++ be32 (u32ofInt blockLength)

/-- The block length computed in `requestPiece`'s loop body: `blockSize`,
except the last block which gets `pieceSize - (blockCount-1)*blockSize`. -/
def blockLen (pieceSize : Int) (blockSize blockCount i : Nat) : Int :=
  if i = blockCount - 1 then pieceSize - (blockCount - 1) * blockSize
  else blockSize

/-- One iteration of `requestPiece`'s loop: send the Request message, read
the 4-byte length prefix with `conn.Read`, read the body with
`io.ReadFull`, and return `result[9:]` — a panic when the body is shorter
than 9 bytes. -/
def requestBlockStep (pieceIndex blockBegin : Nat) (blockLength : Int) (c : Conn) :
    Conn × POut (List Nat) :=
  match connWrite (requestMsg pieceIndex blockBegin blockLength) c with
  | (c1, false) => (c1, .err .writeFailed)
  | (c1, true) =>
    match connRead 4 c1 with
    | none => (c1, .err .readFailed)
    | some (lengthBuf, c2) =>
      match connReadFull (beU32 lengthBuf) c2 with
      | none => (c2, .err .readFailed)
      | some (result, c3) =>
        if result.length < 9 then (c3, .panicked)
        else (c3, .ok (result.drop 9))

/-- The loop of `TorrentClient.requestPiece` over block indices `i`,
`blockCount - i` iterations remaining, accumulating the block payloads. -/
def requestPieceGo (pieceIndex : Nat) (pieceSize : Int) (blockSize blockCount : Nat) :
    Nat → Nat → Conn → List Nat → Conn × POut (List Nat)
  | _, 0, c, acc => (c, .ok acc)
  | i, rem + 1, c, acc =>
    match requestBlockStep pieceIndex (i * blockSize)
        (blockLen pieceSize blockSize blockCount i) c with
    | (c1, .ok block) =>
      requestPieceGo pieceIndex pieceSize blockSize blockCount (i + 1) rem c1 (acc ++ block)
    | (c1, .err e) => (c1, .err e)
    | (c1, .panicked) => (c1, .panicked)

/-- `TorrentClient.requestPiece`. -/
def requestPiece (pieceIndex : Nat) (pieceSize : Int) (blockSize blockCount : Nat)
    (c : Conn) : Conn × POut (List Nat) :=
  requestPieceGo pieceIndex pieceSize blockSize blockCount 0 blockCount c []

/-- The piece size used at iteration `i` of `Download`'s loop: the mutable
`pieceSize` variable holds `PieceLength` except at the final index, where it
is reassigned to `Length % PieceLength` (with no special case when that
remainder is zero). -/
def pieceActualSize (fileLength pieceLength pieceCount i : Nat) : Nat :=
  if i = pieceCount - 1 then fileLength % pieceLength else pieceLength

/-- The piece loop of `TorrentClient.Download`: per piece compute the piece
size and block count, request the piece, append it to the file buffer; a
piece failure returns the wrapped error. -/
def pieceLoop (fileLength pieceLength pieceCount : Nat) :
    Nat → Nat → Conn → List Nat → Conn × POut (List Nat)
  | _, 0, c, acc => (c, .ok acc)
  | i, rem + 1, c, acc =>
    match requestPiece i (pieceActualSize fileLength pieceLength pieceCount i : Int)
        16384 (ceilDivNat (pieceActualSize fileLength pieceLength pieceCount i) 16384) c with
    | (c1, .ok piece) =>
      pieceLoop fileLength pieceLength pieceCount (i + 1) rem c1 (acc ++ piece)
    | (c1, .err e) => (c1, .err (.pieceFailed e))
    | (c1, .panicked) => (c1, .panicked)

/-- Oracle outcomes for the external effects of `Download`. -/
structure World where
  trackerOk : Bool
  dialOk : Bool
  conn : Conn
  writeFileOk : Bool
  deriving DecidableEq

/-- The treatment `Download` applies to the calls whose return value the
source discards (`client.waitForMessage(conn, Bitfield)`,
`client.interested(conn)`, `client.waitForMessage(conn, Unchoke)`): both a
returned error and a success are ignored and the (possibly advanced)
connection is used for the next step; only a runtime panic escapes. -/
def discardErr (x : Conn × POut Unit) : Option Conn :=
  match x with
  | (_, .panicked) => none
  | (c, .ok _) => some c
  | (c, .err _) => some c

/-- `TorrentClient.Download`: tracker exchange, handshake, then the
Bitfield wait, the Interested send and the Unchoke wait — whose return
values the source discards (a panic inside them still crashes) — then the
piece loop, and finally the single `os.WriteFile`.  Returns the outcome
together with the list of file writes performed. -/
def Download (infoHash peerId : List Nat) (fileLength pieceLength : Nat) (w : World) :
    POut Unit × List (List Nat) :=
  if w.trackerOk = false then (.err .trackerFailed, [])
  else
    match Handshake w.dialOk infoHash peerId w.conn with
    | (_, .err e) => (.err (.handshakeFailed e), [])
    | (_, .panicked) => (.panicked, [])
    | (c0, .ok _) =>
      match discardErr (waitForMessage 5 c0) with
      | none => (.panicked, [])
      | some c1 =>
        match discardErr (interested c1) with
        | none => (.panicked, [])
        | some c2 =>
          match discardErr (waitForMessage 1 c2) with
          | none => (.panicked, [])
          | some c3 =>
            match pieceLoop fileLength pieceLength (ceilDivNat fileLength pieceLength)
                0 (ceilDivNat fileLength pieceLength) c3 [] with
            | (_, .ok data) =>
              if w.writeFileOk then (.ok (), [data]) else (.err .writeFileFailed, [])
            | (_, .err e) => (.err e, [])
            | (_, .panicked) => (.panicked, [])

/-! ## Helper lemmas -/

theorem dropWhile_ne_append (delim : Nat) (pre rest : List Nat) (h : delim ∉ pre) :
    (pre ++ delim :: rest).dropWhile (fun b => b ≠ delim) = delim :: rest := by
  induction pre with
  | nil => simp [List.dropWhile_cons]
  | cons a as ih =>
    have ha : a ≠ delim := fun hh => h (hh ▸ List.mem_cons_self a as)
    have ih' := ih (fun hm => h (List.mem_cons_of_mem a hm))
    simp only [List.cons_append, List.dropWhile_cons]
    rw [if_pos (by simp [ha])]
    exact ih'

theorem takeWhile_ne_append (delim : Nat) (pre rest : List Nat) (h : delim ∉ pre) :
    (pre ++ delim :: rest).takeWhile (fun b => b ≠ delim) = pre := by
  induction pre with
  | nil => simp [List.takeWhile_cons]
  | cons a as ih =>
    have ha : a ≠ delim := fun hh => h (hh ▸ List.mem_cons_self a as)
    have ih' := ih (fun hm => h (List.mem_cons_of_mem a hm))
    simp only [List.cons_append, List.takeWhile_cons]
    rw [if_pos (by simp [ha])]
    rw [ih']

theorem readBytesUntil_split (delim : Nat) (pre rest : List Nat) (h : delim ∉ pre) :
    readBytesUntil delim (pre ++ delim :: rest) = some (pre ++ [delim], rest) := by
  simp only [readBytesUntil, dropWhile_ne_append delim pre rest h,
    takeWhile_ne_append delim pre rest h]

/-! ## Claim C3: integer decoding -/

/-- C3 (counterexample): contrary to the claim, the input "i-0e" is not
rejected: `strconv.Atoi` accepts "-0", so the decoder yields 0. -/
theorem C3_counterexample :
    decodeD 1 [105, 45, 48, 101] = .ok (.int 0, []) := rfl

/-- C3 (amended): integer decoding rejects "i03e" and "iXe"; it accepts
"i0e" (yielding 0), "i-5e" (yielding -5), "i42e" (yielding 42), and also
accepts "i-0e" (yielding 0), since the numeric parser accepts a signed
zero; the leading-zero rejection applies only when '0' is the first
character of the number. -/
theorem C3_amended_thm :
    decodeD 1 [105, 48, 51, 101] = .error .invalidInt ∧
    decodeD 1 [105, 88, 101] = .error .invalidInt ∧
    decodeD 1 [105, 48, 101] = .ok (.int 0, []) ∧
    decodeD 1 [105, 45, 53, 101] = .ok (.int (-5), []) ∧
    decodeD 1 [105, 52, 50, 101] = .ok (.int 42, []) ∧
    decodeD 1 [105, 45, 48, 101] = .ok (.int 0, []) :=
  ⟨rfl, rfl, rfl, rfl, rfl, rfl⟩

/-! ## Claim C4: byte-string decoding with a short stream -/

/-- C4 (counterexample): contrary to the claim, on input "5:ab" — declared
length 5 with only 2 bytes remaining — decode does not fail: the single
buffered read returns the 2 available bytes without error and the
zero-initialised remainder of the buffer is kept, yielding the 5-byte
string "ab\x00\x00\x00". -/
theorem C4_counterexample :
    decodeD 1 [53, 58, 97, 98] = .ok (.str [97, 98, 0, 0, 0], []) := rfl

/-- C4 (amended): byte-string decoding fails when the length prefix before
':' is non-numeric, and fails when the stream after ':' is already empty
while the declared length N is positive; but when at least one and fewer
than N bytes remain, it succeeds, returning the remaining bytes zero-padded
to an N-byte string. -/
theorem C4_amended_thm :
    (∀ pre rest, 58 ∉ pre → atoi pre = none →
      decodeString (pre ++ 58 :: rest) = .error .invalidStringFormat) ∧
    (∀ pre N, 58 ∉ pre → atoi pre = some N → 0 < N →
      decodeString (pre ++ [58]) = .error .readFailed) ∧
    (∀ pre N rem, 58 ∉ pre → atoi pre = some N → rem ≠ [] → rem.length < N.toNat →
      decodeString (pre ++ 58 :: rem) =
        .ok (rem ++ List.replicate (N.toNat - rem.length) 0, [])) := by
  refine ⟨?_, ?_, ?_⟩
  · intro pre rest h58 hatoi
    simp only [decodeString, readBytesUntil_split 58 pre rest h58,
      List.dropLast_concat, hatoi]
  · intro pre N h58 hatoi hN
    have hsplit := readBytesUntil_split 58 pre [] h58
    simp only [decodeString, hsplit, List.dropLast_concat, hatoi]
    have h1 : ¬(N < 0) := by omega
    have h2 : N.toNat ≠ 0 := by omega
    simp [h1, h2]
  · intro pre N rem h58 hatoi hrem hlen
    have h1 : ¬(N < 0) := by omega
    simp only [decodeString, readBytesUntil_split 58 pre rem h58,
      List.dropLast_concat, hatoi, if_neg h1]
    have h2 : ¬(rem = [] ∧ N.toNat ≠ 0) := fun hc => hrem hc.1
    rw [if_neg h2]
    have htake : rem.take N.toNat = rem := List.take_of_length_le (le_of_lt hlen)
    have hdrop : rem.drop N.toNat = [] := List.drop_eq_nil_of_le (le_of_lt hlen)
    simp [paddedTake, htake, hdrop]

/-- C4 (witness): the three amended cases at concrete inputs: "a:" has a
non-numeric length prefix; "5:" declares 5 bytes with an empty remainder;
"5:ab" declares 5 bytes with 2 remaining and yields the padded string. -/
theorem C4_witness :
    decodeString [97, 58] = .error .invalidStringFormat ∧
    decodeString [53, 58] = .error .readFailed ∧
    decodeString [53, 58, 97, 98] = .ok ([97, 98, 0, 0, 0], []) := by
  refine ⟨?_, ?_, ?_⟩
  · exact C4_amended_thm.1 [97] [] (by decide) (by decide)
  · exact C4_amended_thm.2.1 [53] 5 (by decide) (by decide) (by decide)
  · have h := C4_amended_thm.2.2 [53] 5 [97, 98] (by decide) (by decide) (by decide) (by decide)
    simpa using h

/-! ## Claim C5: dictionary keys must be byte strings -/

/-- C5: in the dictionary-decoding loop, when the key position decodes to
any value that is not a byte string, the whole decode fails with the
key-type decode error — the key is never coerced. -/
theorem C5_thm (fuel b : Nat) (rest r : List Nat) (acc : List (List Nat × BValue))
    (k : BValue) (hb : b ≠ 101) (hk : decodeD fuel (b :: rest) = .ok (k, r))
    (hstr : ∀ s, k ≠ BValue.str s) :
    decodeDictLoop (fuel + 1) (b :: rest) acc = .error .keyNotString := by
  cases k with
  | str s => exact absurd rfl (hstr s)
  | int n => simp only [decodeDictLoop, if_neg hb, hk]
  | list xs => simp only [decodeDictLoop, if_neg hb, hk]
  | dict xs => simp only [decodeDictLoop, if_neg hb, hk]

/-- C5 (witness): on "i5ee" as dictionary content — the key decodes to the
integer 5 — the dictionary loop fails with the key-type error (this is the
decode of "di5ee" after the leading 'd'). -/
theorem C5_witness :
    decodeDictLoop 4 [105, 53, 101, 101] [] = .error .keyNotString :=
  C5_thm 3 105 [53, 101, 101] [101] [] (.int 5) (by decide) rfl
    (fun s h => BValue.noConfusion h)

/-! ## Connection helper lemmas -/

theorem paddedTake_length (n : Nat) (l : List Nat) : (paddedTake n l).length = n := by
  simp only [paddedTake, List.length_append, List.length_take, List.length_replicate]
  omega

theorem connWrite_nilScript (bs : List Nat) (c : Conn) (h : c.writeResults = []) :
    connWrite bs c = ({ c with sent := c.sent ++ bs }, true) := by
  simp only [connWrite, h]

theorem connWrite_true_sent (bs : List Nat) (c c' : Conn)
    (h : connWrite bs c = (c', true)) : c'.sent = c.sent ++ bs := by
  unfold connWrite at h
  rcases hw : c.writeResults with _ | ⟨b, rest⟩
  · rw [hw] at h
    cases h
    rfl
  · rw [hw] at h
    cases b
    · simp at h
    · cases h
      rfl

theorem connRead_some (n : Nat) (c : Conn) (bs : List Nat) (c' : Conn)
    (h : connRead n c = some (bs, c')) :
    bs = paddedTake n c.incoming ∧ c' = { c with incoming := c.incoming.drop n } := by
  unfold connRead at h
  split at h
  · cases h
  · cases h
    exact ⟨rfl, rfl⟩

theorem connRead_full (n : Nat) (c : Conn) (hn : 0 < n) (h : n ≤ c.incoming.length) :
    connRead n c = some (c.incoming.take n, { c with incoming := c.incoming.drop n }) := by
  have hne : ¬(c.incoming = [] ∧ n ≠ 0) := by
    rintro ⟨he, _⟩
    rw [he] at h
    simp at h
    omega
  simp only [connRead, if_neg hne, paddedTake, Nat.sub_eq_zero_of_le h,
    List.replicate_zero, List.append_nil]

theorem connReadFull_of_le (n : Nat) (c : Conn) (h : n ≤ c.incoming.length) :
    connReadFull n c = some (c.incoming.take n, { c with incoming := c.incoming.drop n }) := by
  simp only [connReadFull, if_neg (Nat.not_lt.mpr h)]

theorem waitForMessage_unfold (messageId : Nat) (c : Conn) (lengthBuf : List Nat)
    (c1 : Conn) (h4 : connRead 4 c = some (lengthBuf, c1)) :
    waitForMessage messageId c =
      match connRead (beU32 lengthBuf) c1 with
      | none => (c1, .err .readFailed)
      | some (message, c2) =>
        match message with
        | [] => (c2, .panicked)
        | m :: _ =>
          if m = messageId then (c2, .ok ()) else (c2, .err (.wrongMessage messageId m)) := by
  unfold waitForMessage
  rw [h4]

theorem discardErr_eq (c : Conn) (r : POut Unit) (h : r ≠ .panicked) :
    discardErr (c, r) = some c := by
  cases r with
  | ok a => rfl
  | err e => rfl
  | panicked => exact absurd rfl h

/-! ## Claim C1: piece sizing (code bug at exact multiples) -/

/-- C1 (evaluation at the failing input): for fileLength 1048576 and
pieceLength 262144 the code computes pieceCount 4, but the last piece's
actual length is `1048576 % 262144 = 0` — not 262144 as the claim states:
the source has no special case turning a zero remainder into a full piece
length.  The zero size makes the block count 0, so `requestPiece` returns
an empty piece without touching the connection.  The claim's second
example (fileLength 1000000) does match the code. -/
theorem C1_code_eval :
    ceilDivNat 1048576 262144 = 4 ∧
    pieceActualSize 1048576 262144 4 0 = 262144 ∧
    pieceActualSize 1048576 262144 4 3 = 0 ∧
    ceilDivNat (pieceActualSize 1048576 262144 4 3) 16384 = 0 ∧
    requestPiece 3 (pieceActualSize 1048576 262144 4 3 : Int) 16384
      (ceilDivNat (pieceActualSize 1048576 262144 4 3) 16384) ⟨[1, 2, 3], [4], [true]⟩ =
      (⟨[1, 2, 3], [4], [true]⟩, .ok []) ∧
    ceilDivNat 1000000 262144 = 4 ∧
    pieceActualSize 1000000 262144 4 3 = 213568 :=
  ⟨by decide, by decide, by decide, by decide, rfl, by decide, by decide⟩

/-! ## Claim C10: waitForMessage on a zero-length frame -/

/-- C10: `waitForMessage` assumes a non-empty message body.  On a frame
whose 4-byte length prefix is zero (a keep-alive), the body is empty and
the `message[0]` access is out of range: the result is a runtime panic,
not a returned protocol error.  Conversely, whenever the decoded length
prefix is non-zero the function never panics, so totality holds exactly
under the precondition that every received frame has length prefix >= 1. -/
theorem C10_thm :
    (∀ (messageId : Nat) (c : Conn) (rest : List Nat),
      c.incoming = 0 :: 0 :: 0 :: 0 :: rest →
      (waitForMessage messageId c).2 = .panicked) ∧
    (∀ (messageId : Nat) (c : Conn),
      beU32 (paddedTake 4 c.incoming) ≠ 0 →
      (waitForMessage messageId c).2 ≠ .panicked) := by
  constructor
  · intro messageId c rest hc
    obtain ⟨cin, cs, cw⟩ := c
    simp only at hc
    subst hc
    have h4 : connRead 4 ⟨0 :: 0 :: 0 :: 0 :: rest, cs, cw⟩ =
        some ([0, 0, 0, 0], ⟨rest, cs, cw⟩) := by
      have : (0 :: 0 :: 0 :: 0 :: rest : List Nat) ≠ [] := by simp
      simp only [connRead, this, false_and, if_neg, not_false_eq_true, paddedTake]
      have hlen : 4 - (0 :: 0 :: 0 :: 0 :: rest : List Nat).length = 0 := by
        simp
      rw [hlen]
      rfl
    have h0 : connRead 0 ⟨rest, cs, cw⟩ = some ([], ⟨rest, cs, cw⟩) := by
      simp [connRead, paddedTake]
    simp only [waitForMessage, h4]
    have hbe : beU32 [0, 0, 0, 0] = 0 := rfl
    rw [hbe, h0]
  · intro messageId c hbe
    rcases h4 : connRead 4 c with _ | ⟨lengthBuf, c1⟩
    · unfold waitForMessage
      rw [h4]
      simp
    · rw [waitForMessage_unfold messageId c lengthBuf c1 h4]
      obtain ⟨hbs, _⟩ := connRead_some 4 c lengthBuf c1 h4
      have hbe' : beU32 lengthBuf ≠ 0 := by
        rw [hbs]
        exact hbe
      rcases hm : connRead (beU32 lengthBuf) c1 with _ | ⟨message, c2⟩
      · simp
      · obtain ⟨hms, _⟩ := connRead_some _ c1 message c2 hm
        have hlen : message.length = beU32 lengthBuf := by
          rw [hms, paddedTake_length]
        rcases message with _ | ⟨m, ms⟩
        · simp at hlen
          exact absurd hlen.symm hbe'
        · by_cases hid : m = messageId <;> simp [hid]

/-- C10 (witness): the keep-alive frame [0,0,0,0] panics; the singleton
Unchoke frame [0,0,0,1,1] (length prefix 1) does not panic. -/
theorem C10_witness :
    (waitForMessage 5 ⟨[0, 0, 0, 0], [], []⟩).2 = .panicked ∧
    (waitForMessage 5 ⟨[0, 0, 0, 1, 1], [], []⟩).2 ≠ .panicked :=
  ⟨C10_thm.1 5 ⟨[0, 0, 0, 0], [], []⟩ [] rfl,
   C10_thm.2 5 ⟨[0, 0, 0, 1, 1], [], []⟩ (by decide)⟩

/-! ## Claim C6: handshake wire format -/

/-- C6: for 20-byte `infoHash` and `localPeerId` the handshake message is
exactly 68 bytes — byte 19, the 19 bytes "BitTorrent protocol", 8 zero
bytes, the 20-byte info hash, the 20-byte peer id — and `Handshake` sends
exactly that message and takes the remote peer id from bytes 48..67 of the
68-byte reply buffer. -/
theorem C6_thm (ih pid : List Nat) (c : Conn) (hih : ih.length = 20)
    (hpid : pid.length = 20) (hin : 68 ≤ c.incoming.length) (hw : c.writeResults = []) :
    (handshakeMsg ih pid).length = 68 ∧
    (handshakeMsg ih pid).take 1 = [19] ∧
    ((handshakeMsg ih pid).drop 1).take 19 = protocolBytes ∧
    ((handshakeMsg ih pid).drop 20).take 8 = List.replicate 8 0 ∧
    ((handshakeMsg ih pid).drop 28).take 20 = ih ∧
    (handshakeMsg ih pid).drop 48 = pid ∧
    Handshake true ih pid c =
      ({ incoming := c.incoming.drop 68, sent := c.sent ++ handshakeMsg ih pid,
         writeResults := [] }, .ok ((c.incoming.take 68).drop 48)) := by
  have hproto : protocolBytes.length = 19 := rfl
  have hflat : handshakeMsg ih pid =
      19 :: (protocolBytes ++ (List.replicate 8 0 ++ (ih ++ pid))) := by
    simp [handshakeMsg]
  refine ⟨?_, ?_, ?_, ?_, ?_, ?_, ?_⟩
  · rw [hflat]
    simp [hproto, hih, hpid]
  · rw [hflat]
    rfl
  · rw [hflat]
    have h1 : List.drop 1 (19 :: (protocolBytes ++ (List.replicate 8 0 ++ (ih ++ pid)))) =
        protocolBytes ++ (List.replicate 8 0 ++ (ih ++ pid)) := rfl
    rw [h1, List.take_left' hproto]
  · have h2 : handshakeMsg ih pid =
        ([19] ++ protocolBytes) ++ (List.replicate 8 0 ++ (ih ++ pid)) := by
      simp [handshakeMsg]
    rw [h2, List.drop_left' (by rfl : ([19] ++ protocolBytes : List Nat).length = 20),
      List.take_left' (by simp : (List.replicate 8 (0 : Nat)).length = 8)]
  · have h3 : handshakeMsg ih pid =
        (([19] ++ protocolBytes) ++ List.replicate 8 0) ++ (ih ++ pid) := by
      simp [handshakeMsg]
    rw [h3,
      List.drop_left'
        (by rfl : ((([19] ++ protocolBytes) ++ List.replicate 8 0 : List Nat)).length = 28),
      List.take_left' hih]
  · have h4 : handshakeMsg ih pid =
        ((([19] ++ protocolBytes) ++ List.replicate 8 0) ++ ih) ++ pid := by
      simp [handshakeMsg]
    rw [h4]
    apply List.drop_left'
    simp [hih, hproto]
  · obtain ⟨cin, cs, cw⟩ := c
    simp only at hin hw
    subst hw
    have hcw := connWrite_nilScript (handshakeMsg ih pid) ⟨cin, cs, []⟩ rfl
    have hcr := connRead_full 68 ⟨cin, cs ++ handshakeMsg ih pid, []⟩ (by omega)
      (by simpa using hin)
    simp only [Handshake, hcw, hcr]
    rfl

/-- C6 (witness): the handshake facts at concrete 20-byte inputs and a
68-byte scripted reply. -/
theorem C6_witness :
    (handshakeMsg (List.replicate 20 3) (List.replicate 20 4)).length = 68 ∧
    (handshakeMsg (List.replicate 20 3) (List.replicate 20 4)).take 1 = [19] ∧
    ((handshakeMsg (List.replicate 20 3) (List.replicate 20 4)).drop 1).take 19 =
      protocolBytes ∧
    ((handshakeMsg (List.replicate 20 3) (List.replicate 20 4)).drop 20).take 8 =
      List.replicate 8 0 ∧
    ((handshakeMsg (List.replicate 20 3) (List.replicate 20 4)).drop 28).take 20 =
      List.replicate 20 3 ∧
    (handshakeMsg (List.replicate 20 3) (List.replicate 20 4)).drop 48 =
      List.replicate 20 4 ∧
    Handshake true (List.replicate 20 3) (List.replicate 20 4)
        ⟨List.replicate 68 7, [], []⟩ =
      ({ incoming := (List.replicate 68 7 : List Nat).drop 68,
         sent := [] ++ handshakeMsg (List.replicate 20 3) (List.replicate 20 4),
         writeResults := [] },
       .ok (((List.replicate 68 7 : List Nat).take 68).drop 48)) :=
  C6_thm (List.replicate 20 3) (List.replicate 20 4) ⟨List.replicate 68 7, [], []⟩
    (by decide) (by decide) (by decide) rfl

/-! ## Claim C7: block request wire format and 9-byte skip -/

/-- C7: one block request writes the 17-byte Request message — big-endian
length prefix 13, id byte 6, then big-endian piece index, block offset and
block length — and the returned block bytes are the framed response body
with exactly its first 9 bytes skipped, for any response body whatsoever:
the echoed piece index and offset inside the body are never compared with
the request. -/
theorem C7_thm (p o : Nat) (n : Int) (c : Conn) (pre body rest : List Nat)
    (hw : c.writeResults = []) (hc : c.incoming = pre ++ (body ++ rest))
    (hpre : pre.length = 4) (hlen : beU32 pre = body.length) (h9 : 9 ≤ body.length) :
    (requestMsg p o n).length = 17 ∧
    (requestMsg p o n).take 4 = [0, 0, 0, 13] ∧
    ((requestMsg p o n).drop 4).take 1 = [6] ∧
    ((requestMsg p o n).drop 5).take 4 = be32 p ∧
    ((requestMsg p o n).drop 9).take 4 = be32 o ∧
    (requestMsg p o n).drop 13 = be32 (u32ofInt n) ∧
    requestBlockStep p o n c =
      ({ incoming := rest, sent := c.sent ++ requestMsg p o n, writeResults := [] },
       .ok (body.drop 9)) := by
  have hb : ∀ k : Nat, (be32 k).length = 4 := fun k => rfl
  have hflat1 : requestMsg p o n =
      be32 13 ++ ([6] ++ (be32 p ++ (be32 o ++ be32 (u32ofInt n)))) := by
    simp [requestMsg]
  have hflat2 : requestMsg p o n =
      (be32 13 ++ [6]) ++ (be32 p ++ (be32 o ++ be32 (u32ofInt n))) := by
    simp [requestMsg]
  have hflat3 : requestMsg p o n =
      ((be32 13 ++ [6]) ++ be32 p) ++ (be32 o ++ be32 (u32ofInt n)) := by
    simp [requestMsg]
  have hflat4 : requestMsg p o n =
      (((be32 13 ++ [6]) ++ be32 p) ++ be32 o) ++ be32 (u32ofInt n) := by
    simp [requestMsg]
  refine ⟨?_, ?_, ?_, ?_, ?_, ?_, ?_⟩
  · simp [requestMsg, be32]
  · rw [hflat1, List.take_left' (hb 13)]
    rfl
  · rw [hflat1, List.drop_left' (hb 13),
      List.take_left' (by rfl : ([6] : List Nat).length = 1)]
  · rw [hflat2, List.drop_left' (by rfl : (be32 13 ++ [6] : List Nat).length = 5),
      List.take_left' (hb p)]
  · rw [hflat3,
      List.drop_left' (by rfl : ((be32 13 ++ [6]) ++ be32 p : List Nat).length = 9),
      List.take_left' (hb o)]
  · rw [hflat4]
    exact List.drop_left'
      (by rfl : (((be32 13 ++ [6]) ++ be32 p) ++ be32 o : List Nat).length = 13)
  · obtain ⟨cin, cs, cw⟩ := c
    simp only at hc hw
    subst hw
    subst hc
    have ht4 : (pre ++ (body ++ rest)).take 4 = pre := List.take_left' hpre
    have hd4 : (pre ++ (body ++ rest)).drop 4 = body ++ rest := List.drop_left' hpre
    have hcr4 : connRead 4 ⟨pre ++ (body ++ rest), cs ++ requestMsg p o n, []⟩ =
        some (pre, ⟨body ++ rest, cs ++ requestMsg p o n, []⟩) := by
      have h := connRead_full 4 ⟨pre ++ (body ++ rest), cs ++ requestMsg p o n, []⟩
        (by omega) (by simp [hpre])
      simpa [ht4, hd4] using h
    have hcrf : connReadFull body.length ⟨body ++ rest, cs ++ requestMsg p o n, []⟩ =
        some (body, ⟨rest, cs ++ requestMsg p o n, []⟩) := by
      have h := connReadFull_of_le body.length ⟨body ++ rest, cs ++ requestMsg p o n, []⟩
        (by simp)
      simpa [List.take_left, List.drop_left] using h
    have h9' : ¬(body.length < 9) := Nat.not_lt.mpr h9
    have hcw : connWrite (requestMsg p o n) ⟨pre ++ (body ++ rest), cs, []⟩ =
        (⟨pre ++ (body ++ rest), cs ++ requestMsg p o n, []⟩, true) := rfl
    simp only [requestBlockStep, hcw, hcr4, hlen, hcrf, h9', if_false]

/-- C7 (witness): piece index 1, offset 2, length 3 against a scripted
9-byte response body of sevens: the 17-byte request facts and the run fact
with the 9-byte skip at concrete values. -/
theorem C7_witness :
    (requestMsg 1 2 3).length = 17 ∧
    (requestMsg 1 2 3).take 4 = [0, 0, 0, 13] ∧
    ((requestMsg 1 2 3).drop 4).take 1 = [6] ∧
    ((requestMsg 1 2 3).drop 5).take 4 = be32 1 ∧
    ((requestMsg 1 2 3).drop 9).take 4 = be32 2 ∧
    (requestMsg 1 2 3).drop 13 = be32 (u32ofInt 3) ∧
    requestBlockStep 1 2 3 ⟨[0, 0, 0, 9, 7, 7, 7, 7, 7, 7, 7, 7, 7], [], []⟩ =
      ({ incoming := [], sent := [] ++ requestMsg 1 2 3, writeResults := [] },
       .ok ((List.replicate 9 7 : List Nat).drop 9)) :=
  C7_thm 1 2 3 ⟨[0, 0, 0, 9, 7, 7, 7, 7, 7, 7, 7, 7, 7], [], []⟩
    [0, 0, 0, 9] (List.replicate 9 7) [] rfl (by decide) (by decide) (by decide) (by decide)

/-! ## Claim C8: block sizing and request order -/

theorem requestBlockStep_ok_sent (p o : Nat) (n : Int) (c c' : Conn) (d : List Nat)
    (h : requestBlockStep p o n c = (c', .ok d)) :
    c'.sent = c.sent ++ requestMsg p o n := by
  unfold requestBlockStep at h
  split at h
  · cases h
  · rename_i c1 hcw
    split at h
    · cases h
    · rename_i lengthBuf c2 h4
      split at h
      · cases h
      · rename_i result c3 hf
        split at h
        · cases h
        · have hs1 : c1.sent = c.sent ++ requestMsg p o n :=
            connWrite_true_sent _ c c1 hcw
          obtain ⟨_, hc2⟩ := connRead_some 4 c1 lengthBuf c2 h4
          have hc3 : c3.sent = c2.sent := by
            unfold connReadFull at hf
            split at hf
            · cases hf
            · cases hf
              rfl
          cases h
          rw [hc3, hc2]
          exact hs1

theorem requestPieceGo_ok_sent (p : Nat) (ps : Int) (bs bc : Nat) :
    ∀ (rem i : Nat) (c c' : Conn) (acc data : List Nat),
      requestPieceGo p ps bs bc i rem c acc = (c', .ok data) →
      c'.sent = c.sent ++
        ((List.range' i rem).map
          (fun j => requestMsg p (j * bs) (blockLen ps bs bc j))).flatten := by
  intro rem
  induction rem with
  | zero =>
    intro i c c' acc data h
    unfold requestPieceGo at h
    cases h
    simp
  | succ rem ih =>
    intro i c c' acc data h
    unfold requestPieceGo at h
    rcases hstep : requestBlockStep p (i * bs) (blockLen ps bs bc i) c with ⟨c1, r⟩
    rw [hstep] at h
    cases r with
    | ok block =>
      have h1 := ih (i + 1) c1 c' (acc ++ block) data h
      have h2 := requestBlockStep_ok_sent p (i * bs) (blockLen ps bs bc i) c c1 block hstep
      rw [h1, h2]
      rw [List.range'_succ]
      simp [List.append_assoc]
    | err e => cases h
    | panicked => cases h

/-- C8: for a piece of actual length L > 0 downloaded with block size
16384, the loop issues `ceil(L/16384)` requests in increasing block-index
order — block j at offset j*16384 — each of length 16384 except the last,
whose length is `L - (blockCount-1)*16384`; the wire messages appended to
the connection are exactly those requests in order. -/
theorem C8_thm (p L : Nat) (hL : 0 < L) (c c2 : Conn) (data : List Nat)
    (hrun : requestPiece p (L : Int) 16384 (ceilDivNat L 16384) c = (c2, .ok data)) :
    0 < ceilDivNat L 16384 ∧
    (∀ i, i < ceilDivNat L 16384 - 1 →
      blockLen (L : Int) 16384 (ceilDivNat L 16384) i = 16384) ∧
    blockLen (L : Int) 16384 (ceilDivNat L 16384) (ceilDivNat L 16384 - 1) =
      (L : Int) - ((ceilDivNat L 16384 : Int) - 1) * 16384 ∧
    c2.sent = c.sent ++
      ((List.range (ceilDivNat L 16384)).map
        (fun j => requestMsg p (j * 16384) (blockLen (L : Int) 16384 (ceilDivNat L 16384) j))).flatten := by
  refine ⟨?_, ?_, ?_, ?_⟩
  · unfold ceilDivNat
    have h1 : 16384 ≤ L + 16384 - 1 := by omega
    exact Nat.div_pos h1 (by omega)
  · intro i hi
    unfold blockLen
    rw [if_neg (by omega)]
    simp
  · unfold blockLen
    rw [if_pos rfl]
    simp
  · have h := requestPieceGo_ok_sent p (L : Int) 16384 (ceilDivNat L 16384)
      (ceilDivNat L 16384) 0 c c2 [] data hrun
    rw [h, List.range_eq_range']

/-- C8 (witness): a piece of length 20000 gives blockCount 2, blocks of
lengths 16384 then 3616 at offsets 0 and 16384, and a scripted run sends
exactly the two Request messages in order. -/
theorem C8_witness :
    0 < ceilDivNat 20000 16384 ∧
    (∀ i, i < ceilDivNat 20000 16384 - 1 →
      blockLen (20000 : Int) 16384 (ceilDivNat 20000 16384) i = 16384) ∧
    blockLen (20000 : Int) 16384 (ceilDivNat 20000 16384) (ceilDivNat 20000 16384 - 1) =
      (20000 : Int) - ((ceilDivNat 20000 16384 : Int) - 1) * 16384 ∧
    (⟨[], [0, 0, 0, 13, 6, 0, 0, 0, 0, 0, 0, 0, 0, 0, 0, 64, 0,
        0, 0, 0, 13, 6, 0, 0, 0, 0, 0, 0, 64, 0, 0, 0, 14, 32], []⟩ : Conn).sent =
      (⟨[0, 0, 0, 9, 0, 0, 0, 0, 0, 0, 0, 0, 0,
         0, 0, 0, 9, 0, 0, 0, 0, 0, 0, 0, 0, 0], [], []⟩ : Conn).sent ++
      ((List.range (ceilDivNat 20000 16384)).map
        (fun j => requestMsg 0 (j * 16384)
          (blockLen (20000 : Int) 16384 (ceilDivNat 20000 16384) j))).flatten :=
  C8_thm 0 20000 (by decide)
    ⟨[0, 0, 0, 9, 0, 0, 0, 0, 0, 0, 0, 0, 0,
      0, 0, 0, 9, 0, 0, 0, 0, 0, 0, 0, 0, 0], [], []⟩
    ⟨[], [0, 0, 0, 13, 6, 0, 0, 0, 0, 0, 0, 0, 0, 0, 0, 64, 0,
        0, 0, 0, 13, 6, 0, 0, 0, 0, 0, 0, 64, 0, 0, 0, 14, 32], []⟩
    [] (by decide)

/-! ## Claim C2: error propagation in Download -/

theorem interested_not_panic (c c' : Conn) (r : POut Unit)
    (h : interested c = (c', r)) : r ≠ .panicked := by
  unfold interested at h
  split at h
  · cases h
    exact fun hx => POut.noConfusion hx
  · cases h
    exact fun hx => POut.noConfusion hx

/-- C2 (counterexample): a run in which awaiting the Bitfield message
fails — the peer's first post-handshake frame carries message id 9, so
`waitForMessage` returns the wrong-message error — and yet `Download` does
not return that error: it continues through Interested and Unchoke and
completes successfully, because the source discards the results of those
three calls. -/
theorem C2_counterexample :
    Download (List.replicate 20 1) (List.replicate 20 2) 0 1
      ⟨true, true, ⟨List.replicate 68 9 ++ [0, 0, 0, 1, 9, 0, 0, 0, 1, 1], [], []⟩, true⟩ =
      (.ok (), [[]]) ∧
    waitForMessage 5
      ⟨[0, 0, 0, 1, 9, 0, 0, 0, 1, 1],
       handshakeMsg (List.replicate 20 1) (List.replicate 20 2), []⟩ =
      (⟨[0, 0, 0, 1, 1], handshakeMsg (List.replicate 20 1) (List.replicate 20 2), []⟩,
       .err (.wrongMessage 5 9)) :=
  ⟨rfl, rfl⟩

/-- C2 (amended): failures of the tracker exchange, the handshake, and any
block request abort `Download` and propagate to the caller; but the return
values of the Bitfield wait, the Interested send and the Unchoke wait are
discarded, so their failures do not abort the download, which proceeds to
the block-request loop regardless of those three outcomes. -/
theorem C2_amended_thm :
    (∀ (ih pid : List Nat) (fL pL : Nat) (w : World),
      w.trackerOk = false →
      Download ih pid fL pL w = (.err .trackerFailed, [])) ∧
    (∀ (ih pid : List Nat) (fL pL : Nat) (w : World) (c : Conn) (e : PErr),
      w.trackerOk = true →
      Handshake w.dialOk ih pid w.conn = (c, .err e) →
      Download ih pid fL pL w = (.err (.handshakeFailed e), [])) ∧
    (∀ (ih pid : List Nat) (fL pL : Nat) (w : World) (c0 : Conn) (rid : List Nat)
      (c1 : Conn) (r1 : POut Unit) (c2 : Conn) (r2 : POut Unit) (c3 : Conn)
      (r3 : POut Unit) (c4 : Conn) (e : PErr),
      w.trackerOk = true →
      Handshake w.dialOk ih pid w.conn = (c0, .ok rid) →
      waitForMessage 5 c0 = (c1, r1) → r1 ≠ .panicked →
      interested c1 = (c2, r2) →
      waitForMessage 1 c2 = (c3, r3) → r3 ≠ .panicked →
      pieceLoop fL pL (ceilDivNat fL pL) 0 (ceilDivNat fL pL) c3 [] = (c4, .err e) →
      Download ih pid fL pL w = (.err e, [])) := by
  refine ⟨?_, ?_, ?_⟩
  · intro ih pid fL pL w h
    simp [Download, h]
  · intro ih pid fL pL w c e ht hhs
    simp [Download, ht, hhs]
  · intro ih pid fL pL w c0 rid c1 r1 c2 r2 c3 r3 c4 e ht hhs hw5 hr1 hint hw1 hr3 hploop
    have hd1 : discardErr (waitForMessage 5 c0) = some c1 := by
      rw [hw5]
      exact discardErr_eq c1 r1 hr1
    have hd2 : discardErr (interested c1) = some c2 := by
      rw [hint]
      exact discardErr_eq c2 r2 (interested_not_panic c1 c2 r2 hint)
    have hd3 : discardErr (waitForMessage 1 c2) = some c3 := by
      rw [hw1]
      exact discardErr_eq c3 r3 hr3
    simp [Download, ht, hhs, hd1, hd2, hd3, hploop]

/-- C2 (witness): the three amended facts at concrete worlds — a failed
tracker exchange, a failed dial, and a run whose first block request hits
the end of the peer's stream (with the Bitfield wait failing on message id
9 along the way and being ignored). -/
theorem C2_witness :
    Download (List.replicate 20 1) (List.replicate 20 2) 0 1
      ⟨false, true, ⟨[], [], []⟩, true⟩ = (.err .trackerFailed, []) ∧
    Download (List.replicate 20 1) (List.replicate 20 2) 0 1
      ⟨true, false, ⟨[], [], []⟩, true⟩ =
      (.err (.handshakeFailed .connectFailed), []) ∧
    Download (List.replicate 20 1) (List.replicate 20 2) 1 2
      ⟨true, true, ⟨List.replicate 68 9 ++ [0, 0, 0, 1, 9, 0, 0, 0, 1, 1], [], []⟩, true⟩ =
      (.err (.pieceFailed .readFailed), []) :=
  ⟨C2_amended_thm.1 (List.replicate 20 1) (List.replicate 20 2) 0 1
      ⟨false, true, ⟨[], [], []⟩, true⟩ rfl,
   C2_amended_thm.2.1 (List.replicate 20 1) (List.replicate 20 2) 0 1
      ⟨true, false, ⟨[], [], []⟩, true⟩ ⟨[], [], []⟩ .connectFailed rfl rfl,
   C2_amended_thm.2.2 (List.replicate 20 1) (List.replicate 20 2) 1 2
      ⟨true, true, ⟨List.replicate 68 9 ++ [0, 0, 0, 1, 9, 0, 0, 0, 1, 1], [], []⟩, true⟩
      ⟨[0, 0, 0, 1, 9, 0, 0, 0, 1, 1],
       handshakeMsg (List.replicate 20 1) (List.replicate 20 2), []⟩
      (List.replicate 20 9)
      ⟨[0, 0, 0, 1, 1], handshakeMsg (List.replicate 20 1) (List.replicate 20 2), []⟩
      (.err (.wrongMessage 5 9))
      ⟨[0, 0, 0, 1, 1],
       handshakeMsg (List.replicate 20 1) (List.replicate 20 2) ++ [0, 0, 0, 1, 2], []⟩
      (.ok ())
      ⟨[], handshakeMsg (List.replicate 20 1) (List.replicate 20 2) ++ [0, 0, 0, 1, 2], []⟩
      (.ok ())
      ⟨[], (handshakeMsg (List.replicate 20 1) (List.replicate 20 2) ++ [0, 0, 0, 1, 2]) ++
        requestMsg 0 0 1, []⟩
      (.pieceFailed .readFailed)
      rfl rfl rfl (fun hx => POut.noConfusion hx) rfl rfl
      (fun hx => POut.noConfusion hx) rfl⟩

/-! ## Claim C9: all-or-nothing output -/

/-- C9: `Download` performs the single file write only after the whole
piece loop has succeeded, writing exactly the loop's concatenated data;
on any error or panic outcome no file write has been performed. -/
theorem C9_thm (ih pid : List Nat) (fL pL : Nat) (w : World) (r : POut Unit)
    (ws : List (List Nat)) (h : Download ih pid fL pL w = (r, ws)) :
    (∃ d c3 c4, r = .ok () ∧ ws = [d] ∧
      pieceLoop fL pL (ceilDivNat fL pL) 0 (ceilDivNat fL pL) c3 [] = (c4, .ok d)) ∨
    (r ≠ .ok () ∧ ws = []) := by
  unfold Download at h
  split at h
  · cases h
    right
    exact ⟨fun hc => POut.noConfusion hc, rfl⟩
  · split at h
    · cases h
      right
      exact ⟨fun hc => POut.noConfusion hc, rfl⟩
    · cases h
      right
      exact ⟨fun hc => POut.noConfusion hc, rfl⟩
    · split at h
      · cases h
        right
        exact ⟨fun hc => POut.noConfusion hc, rfl⟩
      · split at h
        · cases h
          right
          exact ⟨fun hc => POut.noConfusion hc, rfl⟩
        · split at h
          · cases h
            right
            exact ⟨fun hc => POut.noConfusion hc, rfl⟩
          · rename_i c3 hd3
            split at h
            · rename_i c4 data hpl
              split at h
              · cases h
                left
                exact ⟨data, c3, c4, rfl, rfl, hpl⟩
              · cases h
                right
                exact ⟨fun hc => POut.noConfusion hc, rfl⟩
            · cases h
              right
              exact ⟨fun hc => POut.noConfusion hc, rfl⟩
            · cases h
              right
              exact ⟨fun hc => POut.noConfusion hc, rfl⟩

/-- C9 (witness): the successful scripted run writes exactly one file,
whose content is the piece loop's data. -/
theorem C9_witness :
    (∃ d c3 c4, (POut.ok () : POut Unit) = .ok () ∧ ([[]] : List (List Nat)) = [d] ∧
      pieceLoop 0 1 (ceilDivNat 0 1) 0 (ceilDivNat 0 1) c3 [] = (c4, .ok d)) ∨
    ((POut.ok () : POut Unit) ≠ .ok () ∧ ([[]] : List (List Nat)) = []) :=
  C9_thm (List.replicate 20 1) (List.replicate 20 2) 0 1
    ⟨true, true, ⟨List.replicate 68 9 ++ [0, 0, 0, 1, 9, 0, 0, 0, 1, 1], [], []⟩, true⟩
    (.ok ()) [[]] (by rfl)

end Torrent
